import Mathlib

/-!
# Verification of the Autonomous-Delivery-Robots fleet core

A shallow embedding, in Lean 4, of the simulation core of the FleetOps
repository: the `Robot` state machine (`src/core/robot.ts`), the
`MissionManager` registry (`src/core/mission.ts`), the `FleetManager`
registry (`src/core/fleet-manager.ts`) and the lifecycle entry points of
the `SimulationEngine` (`src/core/simulation-engine.ts`).

Modelling conventions:
* `Date` values are milliseconds since the epoch, as `Nat`; each mutating
  operation takes the current time `now` explicitly (the TS code reads
  `new Date()` / `Date.now()`).
* A JS `Map` is a list of entries in insertion order; `Map.set` replaces
  an entry in place when the key is present and appends otherwise.
* A method that throws returns `Except`/`Option`; a thrown error leaves
  the receiver unchanged, exactly as in the source, where every `throw`
  happens before any mutation.
* Randomness (the mission id token drawn from `uuidv4().slice(0, 8)`, the
  random durations) is passed in as an explicit argument.
* The repository's custom `EventEmitter` base class is not part of the
  sources; following the spec's description of the notification fan-out
  it is modelled as synchronous dispatch: an operation that emits an
  event returns the event payload, and a wired caller runs the registered
  handler on it inline.
-/

/-- Robot lifecycle states, from `RobotStatus` in `src/types/index.ts`. -/
inductive RobotStatus where
  | idle
  | assigned
  | en_route
  | delivering
  | completed
deriving DecidableEq, Repr

/-- Observable state of one robot: the private fields of class `Robot`
(`src/core/robot.ts`). -/
structure RobotState where
  id : String
  status : RobotStatus
  currentMissionId : Option String
  createdAt : Nat
  lastUpdated : Nat
deriving DecidableEq, Repr

/-- The `Robot` constructor: status `IDLE`, no bound mission. -/
def Robot.new (id : String) (now : Nat) : RobotState :=
  { id := id, status := .idle, currentMissionId := none,
    createdAt := now, lastUpdated := now }

/-- `Robot.assignMission` (robot.ts lines 45-59): returns `false` and leaves
the robot unchanged when the robot is not `IDLE`; otherwise moves to
`ASSIGNED`, binds the mission id and updates the timestamp. -/
def Robot.assignMission (r : RobotState) (missionId : String) (now : Nat) :
    Bool × RobotState :=
  if r.status ≠ .idle then (false, r)
  else (true, { r with status := .assigned, currentMissionId := some missionId,
                       lastUpdated := now })

/-- `Robot.startMission` (robot.ts lines 61-71): throws (`none`) unless
`ASSIGNED`; otherwise moves to `EN_ROUTE`. -/
def Robot.startMission (r : RobotState) (now : Nat) : Option RobotState :=
  if r.status ≠ .assigned then none
  else some { r with status := .en_route, lastUpdated := now }

/-- `Robot.startDelivering` (robot.ts lines 73-83): throws unless `EN_ROUTE`;
otherwise moves to `DELIVERING`. -/
def Robot.startDelivering (r : RobotState) (now : Nat) : Option RobotState :=
  if r.status ≠ .en_route then none
  else some { r with status := .delivering, lastUpdated := now }

/-- `Robot.completeMission` (robot.ts lines 85-95): throws unless
`DELIVERING`; otherwise moves to `COMPLETED`. -/
def Robot.completeMission (r : RobotState) (now : Nat) : Option RobotState :=
  if r.status ≠ .delivering then none
  else some { r with status := .completed, lastUpdated := now }

/-- `Robot.returnToIdle` (robot.ts lines 97-109): throws unless `COMPLETED`;
otherwise moves to `IDLE` and clears the bound mission id. -/
def Robot.returnToIdle (r : RobotState) (now : Nat) : Option RobotState :=
  if r.status ≠ .completed then none
  else some { r with status := .idle, currentMissionId := none,
                     lastUpdated := now }

/-- `Robot.cancelCurrentMission` (robot.ts lines 111-125): a no-op when the
robot is already `IDLE` (no event, no field change); otherwise moves to
`IDLE`, clears the bound mission id, and emits a `missionCancelled` event
whose payload carries the previously bound mission id. The second component
is `some payload` exactly when the event is emitted. -/
def Robot.cancelCurrentMission (r : RobotState) (now : Nat) :
    RobotState × Option (Option String) :=
  if r.status = .idle then (r, none)
  else ({ r with status := .idle, currentMissionId := none,
                 lastUpdated := now },
        some r.currentMissionId)

/-- One invocation of a public mutating method of class `Robot`. -/
inductive RobotOp where
  | assignMission (missionId : String)
  | startMission
  | startDelivering
  | completeMission
  | returnToIdle
  | cancelCurrentMission
deriving DecidableEq, Repr

/-- Apply one robot operation at time `now`; a call whose precondition fails
(`false` return or thrown error) leaves the robot unchanged. -/
def applyRobotOp (r : RobotState) (op : RobotOp) (now : Nat) : RobotState :=
  match op with
  | .assignMission missionId => (Robot.assignMission r missionId now).2
  | .startMission => (Robot.startMission r now).getD r
  | .startDelivering => (Robot.startDelivering r now).getD r
  | .completeMission => (Robot.completeMission r now).getD r
  | .returnToIdle => (Robot.returnToIdle r now).getD r
  | .cancelCurrentMission => (Robot.cancelCurrentMission r now).1

/-- Run a sequence of robot operations, each with its own invocation time. -/
def runRobotOps (r : RobotState) (ops : List (RobotOp × Nat)) : RobotState :=
  ops.foldl (fun s p => applyRobotOp s p.1 p.2) r

/-- The robot invariant of the spec: `status == IDLE ⟺ currentMissionId == null`. -/
def robotIdleInv (r : RobotState) : Prop :=
  r.status = RobotStatus.idle ↔ r.currentMissionId = none

instance (r : RobotState) : Decidable (robotIdleInv r) := by
  unfold robotIdleInv; infer_instance

/-- Mission lifecycle states, the `MissionStatus` union of `src/types/index.ts`. -/
inductive MissionStatus where
  | created
  | assigned
  | in_progress
  | completed
  | cancelled
deriving DecidableEq, Repr

/-- The `Mission` record of `src/types/index.ts`. -/
structure Mission where
  id : String
  status : MissionStatus
  createdAt : Nat
  assignedAt : Option Nat := none
  startedAt : Option Nat := none
  completedAt : Option Nat := none
  cancelledAt : Option Nat := none
  robotId : Option String := none
  estimatedDuration : Nat
deriving DecidableEq, Repr

/-- Errors thrown by `MissionManager` (`src/core/mission.ts`): the
`not found` throw sites and the `cannot be ...` status-mismatch throw
sites, per the spec's `NotFound` / `InvalidTransition` taxonomy. -/
inductive MissionError where
  | notFound (missionId : String)
  | invalidTransition (missionId : String) (current : MissionStatus)
deriving DecidableEq, Repr

/-- JS `Map.set` on a list of entries keyed by `key`: replace the existing
entry in place when the key is present, append otherwise. -/
def mapSetBy {α : Type} (key : α → String) (l : List α) (a : α) : List α :=
  if l.any (fun x => key x == key a) then
    l.map (fun x => if key x == key a then a else x)
  else l ++ [a]

/-- `MissionManager.createMission` (mission.ts lines 20-35): builds a mission
whose id is `mission-` followed by the first 8 characters of the random
uuid drawn at the call, status `created`, `createdAt = now`, and the random
`estimatedDuration`, and stores it in the registry map. Returns the mission
and the updated registry. -/
def MissionManager.createMission (missions : List Mission) (uuid : String)
    (now : Nat) (duration : Nat) : Mission × List Mission :=
  let mission : Mission :=
    { id := "mission-" ++ String.mk (uuid.data.take 8),
      status := .created, createdAt := now, estimatedDuration := duration }
  (mission, mapSetBy Mission.id missions mission)

/-- `MissionManager.assignMission` (mission.ts lines 51-66): `NotFound` for
an unknown id, `InvalidTransition` unless the mission is `created`; on
success sets status `assigned`, `assignedAt = now` and records the robot id. -/
def MissionManager.assignMission (missions : List Mission)
    (missionId robotId : String) (now : Nat) :
    Except MissionError (List Mission) :=
  match missions.find? (fun m => m.id == missionId) with
  | none => .error (.notFound missionId)
  | some mission =>
    if mission.status ≠ .created then
      .error (.invalidTransition missionId mission.status)
    else
      .ok (missions.map (fun m =>
        if m.id == missionId then
          { mission with status := .assigned, assignedAt := some now,
                         robotId := some robotId }
        else m))

/-- `MissionManager.startMission` (mission.ts lines 68-82): `NotFound` for an
unknown id, `InvalidTransition` unless `assigned`; on success sets status
`in_progress` and `startedAt = now`. -/
def MissionManager.startMission (missions : List Mission) (missionId : String)
    (now : Nat) : Except MissionError (List Mission) :=
  match missions.find? (fun m => m.id == missionId) with
  | none => .error (.notFound missionId)
  | some mission =>
    if mission.status ≠ .assigned then
      .error (.invalidTransition missionId mission.status)
    else
      .ok (missions.map (fun m =>
        if m.id == missionId then
          { mission with status := .in_progress, startedAt := some now }
        else m))

/-- `MissionManager.completeMission` (mission.ts lines 84-98): `NotFound` for
an unknown id, `InvalidTransition` unless `in_progress`; on success sets
status `completed` and `completedAt = now`. -/
def MissionManager.completeMission (missions : List Mission)
    (missionId : String) (now : Nat) : Except MissionError (List Mission) :=
  match missions.find? (fun m => m.id == missionId) with
  | none => .error (.notFound missionId)
  | some mission =>
    if mission.status ≠ .in_progress then
      .error (.invalidTransition missionId mission.status)
    else
      .ok (missions.map (fun m =>
        if m.id == missionId then
          { mission with status := .completed, completedAt := some now }
        else m))

/-- `MissionManager.cancelMission` (mission.ts lines 100-115): `NotFound` for
an unknown id; a warning-only no-op when the mission is already `completed`
or `cancelled`; otherwise sets status `cancelled` and `cancelledAt = now`. -/
def MissionManager.cancelMission (missions : List Mission)
    (missionId : String) (now : Nat) : Except MissionError (List Mission) :=
  match missions.find? (fun m => m.id == missionId) with
  | none => .error (.notFound missionId)
  | some mission =>
    if mission.status = .completed ∨ mission.status = .cancelled then
      .ok missions
    else
      .ok (missions.map (fun m =>
        if m.id == missionId then
          { mission with status := .cancelled, cancelledAt := some now }
        else m))

/-- The removal test of `MissionManager.cleanupCompletedMissions`: terminal
status and `createdAt.getTime() < cutoffTime`, with
`cutoffTime = Date.now() - olderThanMs` computed in JS integer arithmetic
(hence over `Int`). -/
def cleanupShouldRemove (cutoff : Int) (m : Mission) : Bool :=
  (m.status == MissionStatus.completed || m.status == MissionStatus.cancelled)
    && decide ((m.createdAt : Int) < cutoff)

/-- The entry loop of `cleanupCompletedMissions`: deletes every entry that
passes the removal test, counting deletions, and keeps the others in order. -/
def cleanupLoop (cutoff : Int) : List Mission → Nat × List Mission
  | [] => (0, [])
  | m :: rest =>
    let res := cleanupLoop cutoff rest
    if cleanupShouldRemove cutoff m then (res.1 + 1, res.2)
    else (res.1, m :: res.2)

/-- `MissionManager.cleanupCompletedMissions` (mission.ts lines 117-134):
removes every mission whose status is `completed` or `cancelled` and whose
`createdAt` is strictly below `now - olderThanMs`; returns the number
removed together with the remaining registry. -/
def MissionManager.cleanupCompletedMissions (missions : List Mission)
    (olderThanMs : Nat) (now : Nat) : Nat × List Mission :=
  cleanupLoop ((now : Int) - (olderThanMs : Int)) missions

/-- One invocation of a mutating method of `MissionManager`, with the
randomness and the invocation time made explicit. -/
inductive MissionOp where
  | create (uuid : String) (now duration : Nat)
  | assign (missionId robotId : String) (now : Nat)
  | start (missionId : String) (now : Nat)
  | complete (missionId : String) (now : Nat)
  | cancel (missionId : String) (now : Nat)
deriving DecidableEq, Repr

/-- Apply one mission operation; a thrown error leaves the registry
unchanged, as every `throw` in the source precedes any mutation. -/
def applyMissionOp (missions : List Mission) (op : MissionOp) : List Mission :=
  match op with
  | .create uuid now duration =>
    (MissionManager.createMission missions uuid now duration).2
  | .assign missionId robotId now =>
    ((MissionManager.assignMission missions missionId robotId now).toOption).getD missions
  | .start missionId now =>
    ((MissionManager.startMission missions missionId now).toOption).getD missions
  | .complete missionId now =>
    ((MissionManager.completeMission missions missionId now).toOption).getD missions
  | .cancel missionId now =>
    ((MissionManager.cancelMission missions missionId now).toOption).getD missions

/-- Run a sequence of mission-registry operations from a registry state. -/
def runMissionOps (missions : List Mission) (ops : List MissionOp) : List Mission :=
  ops.foldl applyMissionOp missions

/-- Little-endian decimal digits of `n`, with explicit fuel (the value
itself suffices as fuel); models the digit loop of JS `Number.toString()`. -/
def decDigitsAux : Nat → Nat → List Nat
  | 0, _ => []
  | fuel + 1, n => if n = 0 then [] else n % 10 :: decDigitsAux fuel (n / 10)

/-- JS `i.toString()` for a non-negative integer: its decimal rendering. -/
def natToString (n : Nat) : String :=
  if n = 0 then "0"
  else String.mk ((decDigitsAux n n).reverse.map Nat.digitChar)

/-- JS `String.prototype.padStart(len, c)`: left-pad with `c` up to `len`
characters (no change when the string is already at least that long). -/
def padStart (s : String) (len : Nat) (c : Char) : String :=
  String.mk (List.replicate (len - s.length) c ++ s.data)

/-- The robot id the fleet initialization loop builds for loop index `i`:
`robot-` followed by `i.toString().padStart(3, '0')`. -/
def robotIdFor (i : Nat) : String :=
  "robot-" ++ padStart (natToString i) 3 '0'

/-- The robot collection of class `FleetManager` (fleet-manager.ts), a JS
`Map` in insertion order. -/
structure FleetState where
  robots : List RobotState
deriving DecidableEq, Repr

/-- `FleetManager.initializeFleet` (fleet-manager.ts lines 15-30): for
`i = 1` to `robotCount`, constructs a fresh robot with id `robotIdFor i`
and stores it with `Map.set` (replacing any robot already under that id). -/
def FleetManager.initializeFleet (f : FleetState) (robotCount : Nat)
    (now : Nat) : FleetState :=
  { robots := (List.range robotCount).foldl
      (fun l i => mapSetBy RobotState.id l (Robot.new (robotIdFor (i + 1)) now))
      f.robots }

/-- `FleetManager.getAvailableRobots` (fleet-manager.ts lines 40-44): the
robots whose status is `IDLE`, in collection order. -/
def FleetManager.getAvailableRobots (f : FleetState) : List RobotState :=
  f.robots.filter (fun r => r.status == RobotStatus.idle)

/-- `FleetManager.assignMissionToAvailableRobot` (fleet-manager.ts lines
46-63): `none` when no robot is available; otherwise calls `assignMission`
on the first available robot and, when that returns `true`, returns the
selected robot (here: its id) with the updated collection; a `false`
return from `assignMission` also yields `none`. -/
def FleetManager.assignMissionToAvailableRobot (f : FleetState)
    (missionId : String) (now : Nat) : Option String × FleetState :=
  match FleetManager.getAvailableRobots f with
  | [] => (none, f)
  | selectedRobot :: _ =>
    let res := Robot.assignMission selectedRobot missionId now
    if res.1 then
      (some selectedRobot.id,
       { robots := f.robots.map (fun x =>
           if x.id == selectedRobot.id then res.2 else x) })
    else (none, f)

/-- `FleetManager.cancelRobotMission` (fleet-manager.ts lines 65-75):
`false` when the robot id is unknown; otherwise delegates to the robot's
`cancelCurrentMission`. The last component is the `missionCancelled` event
payload forwarded (as `robotMissionCancelled`) to the fleet's listeners,
`some payload` exactly when the robot emitted it. -/
def FleetManager.cancelRobotMission (f : FleetState) (robotId : String)
    (now : Nat) : Bool × FleetState × Option (Option String) :=
  match f.robots.find? (fun r => r.id == robotId) with
  | none => (false, f, none)
  | some robot =>
    let res := Robot.cancelCurrentMission robot now
    (true,
     { robots := f.robots.map (fun x => if x.id == robotId then res.1 else x) },
     res.2)

/-- The two registries a `SimulationEngine` is constructed over. -/
structure SystemState where
  fleet : FleetState
  missions : List Mission
deriving DecidableEq, Repr

/-- `FleetManager.cancelRobotMission` as observed with a constructed
`SimulationEngine` (simulation-engine.ts lines 39-48): the engine's
`robotMissionCancelled` handler runs synchronously during the call and
invokes `missionManager.cancelMission(data.missionId)`; an error thrown by
that handler propagates to the caller. A `null` mission id in the payload
makes the handler's registry lookup fail with `NotFound`. -/
def SimulationEngine.cancelRobotMission (sys : SystemState) (robotId : String)
    (now : Nat) : Except MissionError (Bool × SystemState) :=
  let res := FleetManager.cancelRobotMission sys.fleet robotId now
  match res.2.2 with
  | none => .ok (res.1, { fleet := res.2.1, missions := sys.missions })
  | some payload =>
    match payload with
    | none => .error (.notFound "null")
    | some missionId =>
      (MissionManager.cancelMission sys.missions missionId now).map
        (fun missions2 => (res.1, { fleet := res.2.1, missions := missions2 }))

/-- Scheduler lifecycle state of `SimulationEngine` (simulation-engine.ts):
the running flag and whether each of the three periodic timers is armed. -/
structure EngineState where
  isSimulationRunning : Bool
  missionGenerationTimer : Bool
  stateTransitionTimer : Bool
  cleanupTimer : Bool
deriving DecidableEq, Repr

/-- The engine errors thrown by scheduler lifecycle methods: the single
`throw` site is in `start`. -/
inductive EngineError where
  | alreadyRunning
deriving DecidableEq, Repr

/-- A `SimulationEngine` as constructed: not running, no timer armed. -/
def SimulationEngine.initial : EngineState :=
  { isSimulationRunning := false, missionGenerationTimer := false,
    stateTransitionTimer := false, cleanupTimer := false }

/-- `SimulationEngine.start` (simulation-engine.ts lines 50-75): throws
`Simulation is already running` when the running flag is set; otherwise
sets the flag and arms the three timers. -/
def SimulationEngine.start (e : EngineState) : Except EngineError EngineState :=
  if e.isSimulationRunning then .error .alreadyRunning
  else .ok { isSimulationRunning := true, missionGenerationTimer := true,
             stateTransitionTimer := true, cleanupTimer := true }

/-- `SimulationEngine.stop` (simulation-engine.ts lines 77-104): when the
engine is not running it logs a warning and returns with nothing changed;
otherwise clears the flag and the three timers. It never throws. -/
def SimulationEngine.stop (e : EngineState) : Except EngineError EngineState :=
  if !e.isSimulationRunning then .ok e
  else .ok { isSimulationRunning := false, missionGenerationTimer := false,
             stateTransitionTimer := false, cleanupTimer := false }

/-- Lexicographic comparison of two character lists by code point, the
order underlying "lowest ID" on the zero-padded robot ids. -/
def charListLtb : List Char → List Char → Bool
  | [], [] => false
  | [], _ :: _ => true
  | _ :: _, [] => false
  | a :: as, b :: bs =>
    if a.toNat < b.toNat then true
    else if b.toNat < a.toNat then false
    else charListLtb as bs

/-- Strict lexicographic order on id strings. -/
def idLt (a b : String) : Prop := charListLtb a.data b.data = true

instance (a b : String) : Decidable (idLt a b) := by
  unfold idLt; infer_instance

/-- Little-endian weight of a decimal digit list, used to show the digit
rendering is injective. -/
def decValue : List Nat → Nat
  | [] => 0
  | d :: rest => d + 10 * decValue rest

/-- Strip leading `0` characters; a left inverse of zero-padding. -/
def dropZeros : List Char → List Char
  | [] => []
  | c :: rest => if c = '0' then dropZeros rest else c :: rest

/-- An already-terminal mission used to exercise idempotent cancellation. -/
def c4Mission : Mission :=
  { id := "mission-aaaa1111", status := .completed, createdAt := 0,
    completedAt := some 4, robotId := some "robot-001",
    estimatedDuration := 1000 }

/-- A mission still in its initial `created` state. -/
def c6Mission : Mission :=
  { id := "mission-bbbb2222", status := .created, createdAt := 0,
    estimatedDuration := 1000 }

/-- A terminal mission whose `createdAt` equals the cleanup instant. -/
def c7Mission : Mission :=
  { id := "mission-cccc3333", status := .completed, createdAt := 100,
    completedAt := some 100, robotId := some "robot-001",
    estimatedDuration := 1000 }

/-- C7 as stated, "in particular" clause: a `maxAgeMs` of `0` removes all
terminal (completed or cancelled) missions immediately. -/
def c7Statement : Prop :=
  ∀ (missions : List Mission) (now : Nat),
    ∀ m ∈ (MissionManager.cleanupCompletedMissions missions 0 now).2,
      ¬(m.status = .completed ∨ m.status = .cancelled)

/-- The invariant claimed for the mission registry, forward direction: an
`assigned` or `in_progress` mission has a robot recorded. -/
def missionBoundInv (missions : List Mission) : Prop :=
  ∀ m ∈ missions,
    (m.status = .assigned ∨ m.status = .in_progress) → m.robotId ≠ none

/-- A create/assign/start/complete history driving one mission to
`completed`. -/
def c3CexOps : List MissionOp :=
  [.create "abcd1234" 0 1000,
   .assign "mission-abcd1234" "robot-001" 1,
   .start "mission-abcd1234" 2,
   .complete "mission-abcd1234" 3]

/-- The mission that history leaves in the registry: `completed`, with the
robot id still recorded. -/
def c3CexMission : Mission :=
  { id := "mission-abcd1234", status := .completed, createdAt := 0,
    assignedAt := some 1, startedAt := some 2, completedAt := some 3,
    robotId := some "robot-001", estimatedDuration := 1000 }

/-- C3 as stated: after any operation sequence, a mission is `assigned` or
`in_progress` if and only if its `robotId` is non-null. -/
def c3Statement : Prop :=
  ∀ (ops : List MissionOp), ∀ m ∈ runMissionOps [] ops,
    ((m.status = .assigned ∨ m.status = .in_progress) ↔ m.robotId ≠ none)

/-- A create/assign history, leaving one `assigned` mission. -/
def c3WitOps : List MissionOp :=
  [.create "abcd1234" 0 1000,
   .assign "mission-abcd1234" "robot-001" 1]

/-- The `assigned` mission that history leaves in the registry. -/
def c3WitMission : Mission :=
  { id := "mission-abcd1234", status := .assigned, createdAt := 0,
    assignedAt := some 1, robotId := some "robot-001",
    estimatedDuration := 1000 }

/-- A mission already in the registry when a token collision is tested. -/
def c8Mission : Mission :=
  { id := "mission-ffff0000", status := .created, createdAt := 0,
    estimatedDuration := 500 }

/-- C8 as stated: for all random outcomes (here: all uuid draws), a newly
created mission's id differs from that of every mission created before it,
and creation always grows the registry (never silently replaces). -/
def c8Statement : Prop :=
  (∀ (u1 u2 : String) (t1 t2 d1 d2 : Nat),
      (MissionManager.createMission
          (MissionManager.createMission [] u1 t1 d1).2 u2 t2 d2).1.id
        ≠ (MissionManager.createMission [] u1 t1 d1).1.id)
  ∧ (∀ (missions : List Mission) (u : String) (t d : Nat),
      ((MissionManager.createMission missions u t d).2).length
        = missions.length + 1)

/-- A three-robot fleet in ascending id order whose first robot is busy:
`robot-001` is `ASSIGNED`, `robot-002` and `robot-003` are `IDLE`. -/
def c2Fleet : FleetState :=
  { robots :=
      [{ id := "robot-001", status := .assigned,
         currentMissionId := some "mission-aaaa1111",
         createdAt := 0, lastUpdated := 1 },
       Robot.new "robot-002" 0,
       Robot.new "robot-003" 0] }

/-- A robot mid-delivery, bound to `mission-abcd1234`. -/
def c5Robot : RobotState :=
  { id := "robot-001", status := .delivering,
    currentMissionId := some "mission-abcd1234",
    createdAt := 0, lastUpdated := 3 }

/-- The bound mission, already driven to `completed` through the mission
registry's own public API while the robot was still delivering. -/
def c5Mission : Mission :=
  { id := "mission-abcd1234", status := .completed, createdAt := 0,
    assignedAt := some 1, startedAt := some 2, completedAt := some 4,
    robotId := some "robot-001", estimatedDuration := 1000 }

/-- The two registries of the desynchronized cancellation scenario. -/
def c5Sys : SystemState :=
  { fleet := { robots := [c5Robot] }, missions := [c5Mission] }

/-- The bound mission while still `in_progress`, as the engine-driven
scenario has it. -/
def c5WitMission : Mission :=
  { id := "mission-abcd1234", status := .in_progress, createdAt := 0,
    assignedAt := some 1, startedAt := some 2,
    robotId := some "robot-001", estimatedDuration := 1000 }

/-- The two registries of the engine-driven mid-flight scenario. -/
def c5WitSys : SystemState :=
  { fleet := { robots := [c5Robot] }, missions := [c5WitMission] }

/-- The system state the desynchronized cancellation actually produces:
robot reset to IDLE, mission left `completed`. -/
def c5SysAfter : SystemState :=
  { fleet := { robots :=
      [{ c5Robot with status := .idle, currentMissionId := none,
                      lastUpdated := 50 }] },
    missions := [c5Mission] }

/-- C5 as stated: whenever a robot is DELIVERING with a bound mission that
exists in the registry, the wired `cancelRobotMission` returns without
error, the robot ends IDLE and unbound, and the mission ends CANCELLED
with `cancelledAt` set. -/
def c5Statement : Prop :=
  ∀ (sys : SystemState) (rid mid : String) (r : RobotState) (m : Mission)
    (now : Nat),
    sys.fleet.robots.find? (fun x => x.id == rid) = some r →
    r.status = .delivering →
    r.currentMissionId = some mid →
    sys.missions.find? (fun x => x.id == mid) = some m →
    ∃ ok2 sys2,
      SimulationEngine.cancelRobotMission sys rid now = .ok (ok2, sys2)
      ∧ (∃ r2, sys2.fleet.robots.find? (fun x => x.id == rid) = some r2
          ∧ r2.status = .idle ∧ r2.currentMissionId = none)
      ∧ (∃ m2, sys2.missions.find? (fun x => x.id == mid) = some m2
          ∧ m2.status = .cancelled ∧ m2.cancelledAt.isSome = true)

/-- A fleet freshly initialized with two robots, the pre-state of the
re-initialization witness. -/
def c10Fleet : FleetState :=
  FleetManager.initializeFleet { robots := [] } 2 0

/-- C9 as stated: `start` on a running engine and `stop` on a non-running
engine both raise a hard fault. -/
def c9Statement : Prop :=
  (∀ e : EngineState, e.isSimulationRunning = true →
      ∃ err, SimulationEngine.start e = .error err)
  ∧ (∀ e : EngineState, e.isSimulationRunning = false →
      ∃ err, SimulationEngine.stop e = .error err)

theorem applyRobotOp_preserves_idleInv (r : RobotState) (op : RobotOp)
    (now : Nat) (h : robotIdleInv r) : robotIdleInv (applyRobotOp r op now) := by
  unfold robotIdleInv at h ⊢
  cases op <;>
    simp only [applyRobotOp, Robot.assignMission, Robot.startMission,
      Robot.startDelivering, Robot.completeMission, Robot.returnToIdle,
      Robot.cancelCurrentMission] <;>
    split <;>
    simp_all

theorem runRobotOps_preserves_idleInv (ops : List (RobotOp × Nat))
    (r : RobotState) (h : robotIdleInv r) : robotIdleInv (runRobotOps r ops) := by
  rw [runRobotOps]
  induction ops generalizing r with
  | nil => exact h
  | cons p rest ih =>
    rw [List.foldl_cons]
    exact ih _ (applyRobotOp_preserves_idleInv _ _ _ h)

/-- C1: every robot state reachable from a freshly constructed (IDLE) robot
by any sequence of `assignMission`, `startMission`, `startDelivering`,
`completeMission`, `returnToIdle`, `cancelCurrentMission` calls satisfies
`status = IDLE ↔ currentMissionId = none`. -/
theorem robot_reachable_idle_iff_unbound (id : String) (t0 : Nat)
    (ops : List (RobotOp × Nat)) :
    robotIdleInv (runRobotOps (Robot.new id t0) ops) :=
  runRobotOps_preserves_idleInv ops _ (by simp [Robot.new, robotIdleInv])

/-- C4: `cancelCurrentMission` on an IDLE robot returns with no event and
every field unchanged, and `cancelMission` on a mission that is already
`completed` or `cancelled` returns without error and with the whole
registry (that mission and all others) unchanged. -/
theorem cancel_idempotent_on_idle_and_terminal (r : RobotState) (now : Nat)
    (missions : List Mission) (missionId : String) (m : Mission)
    (hidle : r.status = .idle)
    (hfound : missions.find? (fun x => x.id == missionId) = some m)
    (hterm : m.status = .completed ∨ m.status = .cancelled) :
    Robot.cancelCurrentMission r now = (r, none)
    ∧ MissionManager.cancelMission missions missionId now = .ok missions := by
  constructor
  · simp [Robot.cancelCurrentMission, hidle]
  · unfold MissionManager.cancelMission
    rw [hfound]
    simp [hterm]

theorem cancel_idempotent_witness :
    Robot.cancelCurrentMission (Robot.new "robot-001" 0) 5
        = (Robot.new "robot-001" 0, none)
    ∧ MissionManager.cancelMission [c4Mission] "mission-aaaa1111" 5
        = .ok [c4Mission] :=
  cancel_idempotent_on_idle_and_terminal (Robot.new "robot-001" 0) 5
    [c4Mission] "mission-aaaa1111" c4Mission (by decide) (by decide)
    (by decide)

/-- C6: `completeMission` on a mission still in `created` state fails with
`InvalidTransition`, and every mutating mission operation on an unknown
mission id fails with `NotFound`; in every such case the registry is left
unchanged. -/
theorem mission_transition_rejection (missions : List Mission)
    (missionId robotId : String) (now : Nat) :
    (∀ m, missions.find? (fun x => x.id == missionId) = some m →
        m.status = .created →
        MissionManager.completeMission missions missionId now
            = .error (.invalidTransition missionId .created)
          ∧ applyMissionOp missions (.complete missionId now) = missions)
    ∧ (missions.find? (fun x => x.id == missionId) = none →
        MissionManager.assignMission missions missionId robotId now
            = .error (.notFound missionId)
        ∧ MissionManager.startMission missions missionId now
            = .error (.notFound missionId)
        ∧ MissionManager.completeMission missions missionId now
            = .error (.notFound missionId)
        ∧ MissionManager.cancelMission missions missionId now
            = .error (.notFound missionId)
        ∧ applyMissionOp missions (.assign missionId robotId now) = missions
        ∧ applyMissionOp missions (.start missionId now) = missions
        ∧ applyMissionOp missions (.complete missionId now) = missions
        ∧ applyMissionOp missions (.cancel missionId now) = missions) := by
  constructor
  · intro m hm hst
    have h1 : MissionManager.completeMission missions missionId now
        = .error (.invalidTransition missionId .created) := by
      unfold MissionManager.completeMission
      rw [hm]
      simp [hst]
    exact ⟨h1, by simp [applyMissionOp, h1, Except.toOption]⟩
  · intro hnone
    have ha : MissionManager.assignMission missions missionId robotId now
        = .error (.notFound missionId) := by
      unfold MissionManager.assignMission; rw [hnone]
    have hs : MissionManager.startMission missions missionId now
        = .error (.notFound missionId) := by
      unfold MissionManager.startMission; rw [hnone]
    have hc : MissionManager.completeMission missions missionId now
        = .error (.notFound missionId) := by
      unfold MissionManager.completeMission; rw [hnone]
    have hx : MissionManager.cancelMission missions missionId now
        = .error (.notFound missionId) := by
      unfold MissionManager.cancelMission; rw [hnone]
    exact ⟨ha, hs, hc, hx,
      by simp [applyMissionOp, ha, Except.toOption],
      by simp [applyMissionOp, hs, Except.toOption],
      by simp [applyMissionOp, hc, Except.toOption],
      by simp [applyMissionOp, hx, Except.toOption]⟩

theorem mission_transition_rejection_witness :
    MissionManager.completeMission [c6Mission] "mission-bbbb2222" 7
        = .error (.invalidTransition "mission-bbbb2222" .created)
    ∧ MissionManager.assignMission [] "mission-zzzz9999" "robot-001" 7
        = .error (.notFound "mission-zzzz9999") :=
  ⟨((mission_transition_rejection [c6Mission] "mission-bbbb2222"
        "robot-001" 7).1 c6Mission (by decide) rfl).1,
   ((mission_transition_rejection [] "mission-zzzz9999"
        "robot-001" 7).2 (by decide)).1⟩

theorem cleanupShouldRemove_eq_true_iff (cutoff : Int) (m : Mission) :
    cleanupShouldRemove cutoff m = true
      ↔ ((m.status = .completed ∨ m.status = .cancelled)
          ∧ (m.createdAt : Int) < cutoff) := by
  simp [cleanupShouldRemove]

theorem cleanupLoop_eq (cutoff : Int) (l : List Mission) :
    cleanupLoop cutoff l
      = (l.countP (cleanupShouldRemove cutoff),
         l.filter (fun m => !cleanupShouldRemove cutoff m)) := by
  induction l with
  | nil => rfl
  | cons m rest ih =>
    rw [cleanupLoop, ih]
    by_cases h : cleanupShouldRemove cutoff m
    · simp [h, List.countP_cons, List.filter_cons]
    · simp [h, List.countP_cons, List.filter_cons]

/-- C7 (amended): `cleanupCompletedMissions(maxAgeMs)` removes exactly the
missions whose status is `completed` or `cancelled` and whose `createdAt`
is strictly older than `now - maxAgeMs`, returns the number removed, and
keeps every other mission unchanged in order; with `maxAgeMs = 0` it
removes exactly the terminal missions created strictly before `now`. -/
theorem cleanup_removes_exactly_old_terminal (missions : List Mission)
    (olderThanMs now : Nat) :
    MissionManager.cleanupCompletedMissions missions olderThanMs now
      = (missions.countP
           (cleanupShouldRemove ((now : Int) - (olderThanMs : Int))),
         missions.filter (fun m =>
           !cleanupShouldRemove ((now : Int) - (olderThanMs : Int)) m))
    ∧ (∀ m : Mission,
        m ∈ (MissionManager.cleanupCompletedMissions missions olderThanMs now).2
          ↔ m ∈ missions
            ∧ ¬((m.status = .completed ∨ m.status = .cancelled)
                 ∧ (m.createdAt : Int) < (now : Int) - (olderThanMs : Int)))
    ∧ (∀ m : Mission,
        m ∈ (MissionManager.cleanupCompletedMissions missions 0 now).2
          ↔ m ∈ missions
            ∧ ¬((m.status = .completed ∨ m.status = .cancelled)
                 ∧ (m.createdAt : Int) < (now : Int))) := by
  have hmem : ∀ (ms : Nat) (m : Mission),
      m ∈ (MissionManager.cleanupCompletedMissions missions ms now).2
        ↔ m ∈ missions
          ∧ ¬((m.status = .completed ∨ m.status = .cancelled)
               ∧ (m.createdAt : Int) < (now : Int) - (ms : Int)) := by
    intro ms m
    unfold MissionManager.cleanupCompletedMissions
    rw [cleanupLoop_eq, List.mem_filter, Bool.not_eq_true', Bool.eq_false_iff,
      Ne, cleanupShouldRemove_eq_true_iff]
  refine ⟨?_, hmem olderThanMs, ?_⟩
  · unfold MissionManager.cleanupCompletedMissions
    exact cleanupLoop_eq _ _
  · intro m
    simpa using hmem 0 m

/-- C7 as stated fails: a terminal mission whose `createdAt` equals the
cleanup instant survives `cleanupCompletedMissions(0)`, because the
removal test is a strict comparison against `now - 0`. -/
theorem cleanup_zero_keeps_same_instant_mission : ¬ c7Statement := by
  intro h
  exact absurd (Or.inl rfl) (h [c7Mission] 100 c7Mission (by decide))

/-- C8 as stated fails: when two `createMission` calls draw uuids with the
same first 8 characters, the second mission receives the same id as the
first and `Map.set` silently replaces it. -/
theorem create_collision_counterexample : ¬ c8Statement := by
  intro h
  exact h.1 "abcd1234" "abcd1234" 0 1 2 3 (by decide)

/-- C8 (amended): a mission created while no registered mission carries the
id built from the drawn token (`mission-` + first 8 uuid characters) is
appended to the registry — nothing is replaced — and its id differs from
that of every mission created before it. On a token collision `Map.set`
replaces the earlier mission instead. -/
theorem create_appends_fresh_token (missions : List Mission) (uuid : String)
    (now duration : Nat)
    (h : ∀ m ∈ missions,
        m.id ≠ "mission-" ++ String.mk (uuid.data.take 8)) :
    (MissionManager.createMission missions uuid now duration).2
      = missions ++ [(MissionManager.createMission missions uuid now duration).1]
    ∧ ∀ m ∈ missions,
        m.id ≠ (MissionManager.createMission missions uuid now duration).1.id := by
  have hany : missions.any
      (fun x => x.id == "mission-" ++ String.mk (uuid.data.take 8)) = false := by
    rw [List.any_eq_false]
    intro x hx
    simpa using h x hx
  constructor
  · simp [MissionManager.createMission, mapSetBy, hany]
  · intro m hm
    simpa [MissionManager.createMission] using h m hm

theorem create_appends_fresh_token_witness :
    (MissionManager.createMission [c8Mission] "abcd1234" 9 700).2
      = [c8Mission] ++ [(MissionManager.createMission [c8Mission] "abcd1234" 9 700).1]
    ∧ ∀ m ∈ [c8Mission],
        m.id ≠ (MissionManager.createMission [c8Mission] "abcd1234" 9 700).1.id :=
  create_appends_fresh_token [c8Mission] "abcd1234" 9 700 (by decide)

/-- C9 (amended): `start()` on an engine whose running flag is set throws
the `AlreadyRunning` hard fault; `stop()` on an engine that is not running
does not throw — it logs a warning and returns with the state unchanged. -/
theorem engine_start_stop_policy (e : EngineState) :
    (e.isSimulationRunning = true →
        SimulationEngine.start e = .error .alreadyRunning)
    ∧ (e.isSimulationRunning = false → SimulationEngine.stop e = .ok e) := by
  constructor
  · intro h; simp [SimulationEngine.start, h]
  · intro h; simp [SimulationEngine.stop, h]

theorem engine_start_stop_policy_witness :
    SimulationEngine.start
        { isSimulationRunning := true, missionGenerationTimer := true,
          stateTransitionTimer := true, cleanupTimer := true }
      = .error .alreadyRunning
    ∧ SimulationEngine.stop SimulationEngine.initial
      = .ok SimulationEngine.initial :=
  ⟨(engine_start_stop_policy _).1 rfl,
   (engine_start_stop_policy _).2 rfl⟩

/-- C9 as stated fails: `stop()` on a non-running engine raises nothing —
it returns normally with the engine unchanged. -/
theorem engine_stop_counterexample : ¬ c9Statement := by
  intro h
  obtain ⟨err, herr⟩ := h.2 SimulationEngine.initial rfl
  cases err
  simp [SimulationEngine.stop, SimulationEngine.initial] at herr

theorem mem_mapSetBy {α : Type} (key : α → String) (l : List α) (a x : α)
    (hx : x ∈ mapSetBy key l a) : x = a ∨ x ∈ l := by
  unfold mapSetBy at hx
  split at hx
  · rw [List.mem_map] at hx
    obtain ⟨y, hy, hxy⟩ := hx
    by_cases hk : (key y == key a) = true
    · rw [if_pos hk] at hxy
      exact Or.inl hxy.symm
    · rw [if_neg hk] at hxy
      exact Or.inr (hxy ▸ hy)
  · rcases List.mem_append.1 hx with h | h
    · exact Or.inr h
    · exact Or.inl (List.mem_singleton.1 h)

theorem boundInv_map_update (missions : List Mission) (missionId : String)
    (upd : Mission) (h : missionBoundInv missions)
    (hupd : (upd.status = .assigned ∨ upd.status = .in_progress) →
      upd.robotId ≠ none) :
    missionBoundInv
      (missions.map (fun m => if m.id == missionId then upd else m)) := by
  intro m hm hst
  rw [List.mem_map] at hm
  obtain ⟨y, hy, hxy⟩ := hm
  by_cases hk : (y.id == missionId) = true
  · rw [if_pos hk] at hxy
    subst hxy
    exact hupd hst
  · rw [if_neg hk] at hxy
    subst hxy
    exact h y hy hst

theorem applyMissionOp_preserves_boundInv (missions : List Mission)
    (op : MissionOp) (h : missionBoundInv missions) :
    missionBoundInv (applyMissionOp missions op) := by
  cases op with
  | create uuid now duration =>
    intro m hm hst
    rcases mem_mapSetBy Mission.id missions _ m hm with rfl | hm2
    · rcases hst with hst | hst <;> simp at hst
    · exact h m hm2 hst
  | assign missionId robotId now =>
    rcases hfind : missions.find? (fun x => x.id == missionId) with _ | mission
    · have hres : MissionManager.assignMission missions missionId robotId now
          = .error (.notFound missionId) := by
        unfold MissionManager.assignMission
        rw [hfind]
      simpa [applyMissionOp, hres, Except.toOption] using h
    · by_cases hst0 : mission.status = .created
      · have hres : MissionManager.assignMission missions missionId robotId now
            = .ok (missions.map (fun m =>
                if m.id == missionId then
                  { mission with status := .assigned, assignedAt := some now,
                                 robotId := some robotId }
                else m)) := by
          unfold MissionManager.assignMission
          rw [hfind]
          simp [hst0]
        simp only [applyMissionOp, hres, Except.toOption, Option.getD_some]
        exact boundInv_map_update missions missionId _ h (fun _ => by simp)
      · have hres : MissionManager.assignMission missions missionId robotId now
            = .error (.invalidTransition missionId mission.status) := by
          unfold MissionManager.assignMission
          rw [hfind]
          simp [hst0]
        simpa [applyMissionOp, hres, Except.toOption] using h
  | start missionId now =>
    rcases hfind : missions.find? (fun x => x.id == missionId) with _ | mission
    · have hres : MissionManager.startMission missions missionId now
          = .error (.notFound missionId) := by
        unfold MissionManager.startMission
        rw [hfind]
      simpa [applyMissionOp, hres, Except.toOption] using h
    · by_cases hst0 : mission.status = .assigned
      · have hrob : mission.robotId ≠ none :=
          h mission (List.mem_of_find?_eq_some hfind) (Or.inl hst0)
        have hres : MissionManager.startMission missions missionId now
            = .ok (missions.map (fun m =>
                if m.id == missionId then
                  { mission with status := .in_progress, startedAt := some now }
                else m)) := by
          unfold MissionManager.startMission
          rw [hfind]
          simp [hst0]
        simp only [applyMissionOp, hres, Except.toOption, Option.getD_some]
        exact boundInv_map_update missions missionId _ h
          (fun _ => by simpa using hrob)
      · have hres : MissionManager.startMission missions missionId now
            = .error (.invalidTransition missionId mission.status) := by
          unfold MissionManager.startMission
          rw [hfind]
          simp [hst0]
        simpa [applyMissionOp, hres, Except.toOption] using h
  | complete missionId now =>
    rcases hfind : missions.find? (fun x => x.id == missionId) with _ | mission
    · have hres : MissionManager.completeMission missions missionId now
          = .error (.notFound missionId) := by
        unfold MissionManager.completeMission
        rw [hfind]
      simpa [applyMissionOp, hres, Except.toOption] using h
    · by_cases hst0 : mission.status = .in_progress
      · have hres : MissionManager.completeMission missions missionId now
            = .ok (missions.map (fun m =>
                if m.id == missionId then
                  { mission with status := .completed, completedAt := some now }
                else m)) := by
          unfold MissionManager.completeMission
          rw [hfind]
          simp [hst0]
        simp only [applyMissionOp, hres, Except.toOption, Option.getD_some]
        exact boundInv_map_update missions missionId _ h
          (fun hc => by rcases hc with hc | hc <;> simp at hc)
      · have hres : MissionManager.completeMission missions missionId now
            = .error (.invalidTransition missionId mission.status) := by
          unfold MissionManager.completeMission
          rw [hfind]
          simp [hst0]
        simpa [applyMissionOp, hres, Except.toOption] using h
  | cancel missionId now =>
    rcases hfind : missions.find? (fun x => x.id == missionId) with _ | mission
    · have hres : MissionManager.cancelMission missions missionId now
          = .error (.notFound missionId) := by
        unfold MissionManager.cancelMission
        rw [hfind]
      simpa [applyMissionOp, hres, Except.toOption] using h
    · by_cases hst0 : mission.status = .completed ∨ mission.status = .cancelled
      · have hres : MissionManager.cancelMission missions missionId now
            = .ok missions := by
          unfold MissionManager.cancelMission
          rw [hfind]
          simp [hst0]
        simpa [applyMissionOp, hres, Except.toOption] using h
      · have hres : MissionManager.cancelMission missions missionId now
            = .ok (missions.map (fun m =>
                if m.id == missionId then
                  { mission with status := .cancelled, cancelledAt := some now }
                else m)) := by
          unfold MissionManager.cancelMission
          rw [hfind]
          simp [hst0]
        simp only [applyMissionOp, hres, Except.toOption, Option.getD_some]
        exact boundInv_map_update missions missionId _ h
          (fun hc => by rcases hc with hc | hc <;> simp at hc)

theorem runMissionOps_preserves_boundInv (ops : List MissionOp)
    (missions : List Mission) (h : missionBoundInv missions) :
    missionBoundInv (runMissionOps missions ops) := by
  rw [runMissionOps]
  induction ops generalizing missions with
  | nil => exact h
  | cons op rest ih =>
    rw [List.foldl_cons]
    exact ih _ (applyMissionOp_preserves_boundInv _ _ h)

/-- C3 (amended): in every registry reachable by `createMission`,
`assignMission`, `startMission`, `completeMission`, `cancelMission` from
the empty registry, a mission whose status is `assigned` or `in_progress`
has a non-null `robotId`. The converse direction of the claimed
equivalence fails (see the counterexample): `completeMission` and
`cancelMission` leave `robotId` set on terminal missions. -/
theorem mission_registry_bound_of_active (ops : List MissionOp)
    (m : Mission) (hm : m ∈ runMissionOps [] ops)
    (hst : m.status = .assigned ∨ m.status = .in_progress) :
    m.robotId ≠ none :=
  runMissionOps_preserves_boundInv ops [] (by intro m hm; cases hm) m hm hst

theorem mission_registry_bound_of_active_witness :
    c3WitMission.robotId ≠ none :=
  mission_registry_bound_of_active c3WitOps c3WitMission (by decide)
    (Or.inl rfl)

/-- C3 as stated fails: completing a mission sets its status to `completed`
but does not clear `robotId`, so `robotId != null` no longer implies
status `ASSIGNED` or `IN_PROGRESS`. -/
theorem completed_mission_keeps_robot_binding : ¬ c3Statement := by
  intro h
  exact absurd ((h c3CexOps c3CexMission (by decide)).mpr (by decide))
    (by decide)

theorem charListLtb_irrefl : ∀ l : List Char, charListLtb l l = false := by
  intro l
  induction l with
  | nil => rfl
  | cons a as ih => simp [charListLtb, ih]

theorem charListLtb_asymm : ∀ l₁ l₂ : List Char,
    charListLtb l₁ l₂ = true → charListLtb l₂ l₁ = false := by
  intro l₁
  induction l₁ with
  | nil => intro l₂ h; cases l₂ <;> simp_all [charListLtb]
  | cons a as ih =>
    intro l₂ h
    cases l₂ with
    | nil => simp [charListLtb] at h
    | cons b bs =>
      by_cases hab : a.toNat < b.toNat
      · have hba : ¬ b.toNat < a.toNat := by omega
        simp [charListLtb, if_neg hba, if_pos hab]
      · by_cases hba : b.toNat < a.toNat
        · simp [charListLtb, hab, hba] at h
        · simp only [charListLtb, if_neg hab, if_neg hba] at h ⊢
          exact ih bs h

theorem idLt_irrefl (s : String) : ¬ idLt s s := by
  unfold idLt
  simp [charListLtb_irrefl]

theorem idLt_asymm (a b : String) (h : idLt a b) : ¬ idLt b a := by
  unfold idLt at h ⊢
  simp [charListLtb_asymm _ _ h]

theorem mem_getAvailableRobots (f : FleetState) (x : RobotState)
    (hx : x ∈ f.robots) (hidle : x.status = .idle) :
    x ∈ FleetManager.getAvailableRobots f := by
  unfold FleetManager.getAvailableRobots
  exact List.mem_filter.2 ⟨hx, by simp [hidle]⟩

theorem assignToAvailable_none_shape (f : FleetState) (missionId : String)
    (now : Nat) (hav : FleetManager.getAvailableRobots f = []) :
    FleetManager.assignMissionToAvailableRobot f missionId now = (none, f) := by
  unfold FleetManager.assignMissionToAvailableRobot
  rw [hav]

theorem assignToAvailable_success_shape (f : FleetState) (missionId : String)
    (now : Nat) (sel : RobotState) (rest : List RobotState)
    (hav : FleetManager.getAvailableRobots f = sel :: rest) :
    sel ∈ f.robots ∧ sel.status = .idle
    ∧ FleetManager.assignMissionToAvailableRobot f missionId now
        = (some sel.id,
           { robots := f.robots.map (fun x =>
               if x.id == sel.id then
                 { sel with status := .assigned,
                            currentMissionId := some missionId,
                            lastUpdated := now }
               else x) }) := by
  have hmemf : sel ∈ f.robots.filter (fun r => r.status == RobotStatus.idle) := by
    unfold FleetManager.getAvailableRobots at hav
    rw [hav]
    exact List.mem_cons_self _ _
  have hselidle : sel.status = .idle := by
    have := List.of_mem_filter hmemf
    simpa using this
  refine ⟨List.mem_of_mem_filter hmemf, hselidle, ?_⟩
  unfold FleetManager.assignMissionToAvailableRobot
  rw [hav]
  simp [Robot.assignMission, hselidle]

/-- C2: on a fleet whose robot list is strictly ascending by id (as
`initializeFleet` builds it), `assignMissionToAvailableRobot` returns
`none` exactly when no robot is IDLE (and then changes nothing); on
success it returns the IDLE robot least in id order, having set exactly
that robot to `ASSIGNED` with the mission bound; and a call made while a
given robot id is not IDLE can never return that robot, so two successful
calls return the same robot only if it became IDLE again in between. -/
theorem assign_to_available_first_idle (f : FleetState) (missionId : String)
    (now : Nat) (hsorted : f.robots.Pairwise (fun a b => idLt a.id b.id)) :
    ((FleetManager.assignMissionToAvailableRobot f missionId now).1 = none ↔
        ∀ r ∈ f.robots, r.status ≠ .idle)
    ∧ ((FleetManager.assignMissionToAvailableRobot f missionId now).1 = none →
        (FleetManager.assignMissionToAvailableRobot f missionId now).2 = f)
    ∧ (∀ rid,
        (FleetManager.assignMissionToAvailableRobot f missionId now).1 = some rid →
        ∃ r ∈ f.robots, r.id = rid ∧ r.status = .idle
          ∧ (∀ x ∈ f.robots, x.status = .idle → ¬ idLt x.id rid)
          ∧ (FleetManager.assignMissionToAvailableRobot f missionId now).2.robots
              = f.robots.map (fun x =>
                  if x.id == rid then
                    { r with status := .assigned,
                             currentMissionId := some missionId,
                             lastUpdated := now }
                  else x)
          ∧ (∀ x ∈ (FleetManager.assignMissionToAvailableRobot f missionId now).2.robots,
              x.id = rid → x.status = .assigned ∧ x.currentMissionId = some missionId))
    ∧ (∀ (g : FleetState) (mid2 : String) (t2 : Nat) (rid : String),
        (∀ x ∈ g.robots, x.id = rid → x.status ≠ .idle) →
        (FleetManager.assignMissionToAvailableRobot g mid2 t2).1 ≠ some rid) := by
  have hgen : ∀ (g : FleetState) (mid2 : String) (t2 : Nat) (rid : String),
      (∀ x ∈ g.robots, x.id = rid → x.status ≠ .idle) →
      (FleetManager.assignMissionToAvailableRobot g mid2 t2).1 ≠ some rid := by
    intro g mid2 t2 rid hbusy hsome
    rcases hav2 : FleetManager.getAvailableRobots g with _ | ⟨sel2, rest2⟩
    · rw [assignToAvailable_none_shape g mid2 t2 hav2] at hsome
      exact Option.noConfusion hsome
    · obtain ⟨hmem2, hidle2, heq2⟩ :=
        assignToAvailable_success_shape g mid2 t2 sel2 rest2 hav2
      rw [heq2] at hsome
      have hid2 : sel2.id = rid := Option.some.inj hsome
      exact hbusy sel2 hmem2 hid2 hidle2
  rcases hav : FleetManager.getAvailableRobots f with _ | ⟨sel, rest⟩
  · have heq := assignToAvailable_none_shape f missionId now hav
    have hall : ∀ r ∈ f.robots, r.status ≠ RobotStatus.idle := by
      intro r hr hidle
      have : r ∈ FleetManager.getAvailableRobots f :=
        mem_getAvailableRobots f r hr hidle
      rw [hav] at this
      cases this
    refine ⟨?_, ?_, ?_, hgen⟩
    · rw [heq]
      exact iff_of_true rfl hall
    · intro _
      rw [heq]
    · intro rid hrid
      rw [heq] at hrid
      exact Option.noConfusion hrid
  · obtain ⟨hselmem, hselidle, heq⟩ :=
      assignToAvailable_success_shape f missionId now sel rest hav
    have hfilterPairwise : (sel :: rest).Pairwise (fun a b => idLt a.id b.id) := by
      rw [← hav]
      unfold FleetManager.getAvailableRobots
      exact hsorted.sublist (List.filter_sublist _)
    refine ⟨?_, ?_, ?_, hgen⟩
    · rw [heq]
      refine iff_of_false (by simp) ?_
      intro hall
      exact hall sel hselmem hselidle
    · intro hx
      rw [heq] at hx
      exact Option.noConfusion hx
    · intro rid hrid
      rw [heq] at hrid
      have hid : sel.id = rid := Option.some.inj hrid
      subst hid
      refine ⟨sel, hselmem, rfl, hselidle, ?_, ?_, ?_⟩
      · intro x hx hxidle
        have hxav : x ∈ sel :: rest := by
          rw [← hav]
          exact mem_getAvailableRobots f x hx hxidle
        rcases List.mem_cons.1 hxav with rfl | hxrest
        · exact idLt_irrefl x.id
        · exact idLt_asymm _ _ ((List.pairwise_cons.1 hfilterPairwise).1 x hxrest)
      · rw [heq]
      · intro x hx hxid
        rw [heq] at hx
        rw [List.mem_map] at hx
        obtain ⟨y, hy, hxy⟩ := hx
        by_cases hk : (y.id == sel.id) = true
        · rw [if_pos hk] at hxy
          rw [← hxy]
          exact ⟨rfl, rfl⟩
        · rw [if_neg hk] at hxy
          rw [← hxy] at hxid
          exact absurd (by simp [hxid]) hk

theorem assign_to_available_first_idle_witness :
    ((FleetManager.assignMissionToAvailableRobot c2Fleet "mission-abcd1234" 7).1 = none ↔
        ∀ r ∈ c2Fleet.robots, r.status ≠ .idle)
    ∧ ((FleetManager.assignMissionToAvailableRobot c2Fleet "mission-abcd1234" 7).1 = none →
        (FleetManager.assignMissionToAvailableRobot c2Fleet "mission-abcd1234" 7).2 = c2Fleet)
    ∧ (∀ rid,
        (FleetManager.assignMissionToAvailableRobot c2Fleet "mission-abcd1234" 7).1 = some rid →
        ∃ r ∈ c2Fleet.robots, r.id = rid ∧ r.status = .idle
          ∧ (∀ x ∈ c2Fleet.robots, x.status = .idle → ¬ idLt x.id rid)
          ∧ (FleetManager.assignMissionToAvailableRobot c2Fleet "mission-abcd1234" 7).2.robots
              = c2Fleet.robots.map (fun x =>
                  if x.id == rid then
                    { r with status := .assigned,
                             currentMissionId := some "mission-abcd1234",
                             lastUpdated := 7 }
                  else x)
          ∧ (∀ x ∈ (FleetManager.assignMissionToAvailableRobot c2Fleet "mission-abcd1234" 7).2.robots,
              x.id = rid → x.status = .assigned ∧ x.currentMissionId = some "mission-abcd1234"))
    ∧ (∀ (g : FleetState) (mid2 : String) (t2 : Nat) (rid : String),
        (∀ x ∈ g.robots, x.id = rid → x.status ≠ .idle) →
        (FleetManager.assignMissionToAvailableRobot g mid2 t2).1 ≠ some rid) :=
  assign_to_available_first_idle c2Fleet "mission-abcd1234" 7 (by decide)

theorem decDigitsAux_zero (fuel : Nat) : decDigitsAux fuel 0 = [] := by
  cases fuel <;> simp [decDigitsAux]

theorem decValue_decDigitsAux : ∀ (fuel n : Nat), n ≤ fuel →
    decValue (decDigitsAux fuel n) = n := by
  intro fuel
  induction fuel with
  | zero =>
    intro n h
    have hn : n = 0 := Nat.le_zero.1 h
    subst hn
    simp [decDigitsAux, decValue]
  | succ f ih =>
    intro n h
    by_cases hn : n = 0
    · subst hn
      simp [decDigitsAux, decValue]
    · have h1 : n / 10 < n := Nat.div_lt_self (Nat.pos_of_ne_zero hn) (by norm_num)
      have h2 : n / 10 ≤ f := by omega
      simp only [decDigitsAux, if_neg hn, decValue]
      rw [ih _ h2]
      omega

theorem decDigitsAux_lt_ten : ∀ (fuel n d : Nat),
    d ∈ decDigitsAux fuel n → d < 10 := by
  intro fuel
  induction fuel with
  | zero => intro n d h; simp [decDigitsAux] at h
  | succ f ih =>
    intro n d h
    by_cases hn : n = 0
    · subst hn; simp [decDigitsAux] at h
    · simp only [decDigitsAux, if_neg hn, List.mem_cons] at h
      rcases h with rfl | h
      · exact Nat.mod_lt _ (by norm_num)
      · exact ih _ _ h

theorem decDigitsAux_concat : ∀ (fuel n : Nat), 1 ≤ n → n ≤ fuel →
    ∃ l d, decDigitsAux fuel n = l ++ [d] ∧ 1 ≤ d ∧ d < 10 := by
  intro fuel
  induction fuel with
  | zero => intro n h1 h2; omega
  | succ f ih =>
    intro n h1 h2
    have hn : n ≠ 0 := by omega
    by_cases hsmall : n < 10
    · refine ⟨[], n % 10, ?_, ?_, Nat.mod_lt _ (by norm_num)⟩
      · simp only [decDigitsAux, if_neg hn]
        rw [Nat.div_eq_of_lt hsmall, decDigitsAux_zero]
        rfl
      · rw [Nat.mod_eq_of_lt hsmall]
        exact h1
    · have hd1 : 1 ≤ n / 10 :=
        (Nat.le_div_iff_mul_le (by norm_num)).2 (by omega)
      have hdle : n / 10 ≤ f := by
        have : n / 10 < n := Nat.div_lt_self (by omega) (by norm_num)
        omega
      obtain ⟨l, d, hld, hd, hd9⟩ := ih (n / 10) hd1 hdle
      exact ⟨n % 10 :: l, d, by simp [decDigitsAux, if_neg hn, hld], hd, hd9⟩

theorem digitChar_inj_lt : ∀ a, a < 10 → ∀ b, b < 10 →
    Nat.digitChar a = Nat.digitChar b → a = b := by decide

theorem digitChar_ne_zero_char : ∀ d, d < 10 → 1 ≤ d →
    Nat.digitChar d ≠ '0' := by decide

theorem map_digitChar_inj : ∀ (l₁ l₂ : List Nat),
    (∀ d ∈ l₁, d < 10) → (∀ d ∈ l₂, d < 10) →
    l₁.map Nat.digitChar = l₂.map Nat.digitChar → l₁ = l₂ := by
  intro l₁
  induction l₁ with
  | nil =>
    intro l₂ _ _ h
    cases l₂ with
    | nil => rfl
    | cons b bs => simp at h
  | cons a as ih =>
    intro l₂ h1 h2 h
    cases l₂ with
    | nil => simp at h
    | cons b bs =>
      simp only [List.map_cons, List.cons.injEq] at h
      have ha : a = b :=
        digitChar_inj_lt a (h1 a (by simp)) b (h2 b (by simp)) h.1
      have hrest : as = bs :=
        ih bs (fun d hd => h1 d (by simp [hd])) (fun d hd => h2 d (by simp [hd])) h.2
      rw [ha, hrest]

theorem natToString_inj : ∀ a b, 1 ≤ a → 1 ≤ b →
    natToString a = natToString b → a = b := by
  intro a b ha hb h
  unfold natToString at h
  rw [if_neg (by omega), if_neg (by omega)] at h
  have hdata : (decDigitsAux a a).reverse.map Nat.digitChar
      = (decDigitsAux b b).reverse.map Nat.digitChar := congrArg String.data h
  have hrev : (decDigitsAux a a).reverse = (decDigitsAux b b).reverse :=
    map_digitChar_inj _ _
      (fun d hd => decDigitsAux_lt_ten _ _ _ (List.mem_reverse.1 hd))
      (fun d hd => decDigitsAux_lt_ten _ _ _ (List.mem_reverse.1 hd)) hdata
  have hdig : decDigitsAux a a = decDigitsAux b b :=
    List.reverse_injective hrev
  have hva := decValue_decDigitsAux a a le_rfl
  have hvb := decValue_decDigitsAux b b le_rfl
  rw [← hva, ← hvb, hdig]

theorem natToString_head : ∀ n, 1 ≤ n →
    ∃ c t, (natToString n).data = c :: t ∧ c ≠ '0' := by
  intro n hn
  obtain ⟨l, d, hld, hd1, hd9⟩ := decDigitsAux_concat n n hn le_rfl
  unfold natToString
  rw [if_neg (by omega)]
  refine ⟨Nat.digitChar d, l.reverse.map Nat.digitChar, ?_,
    digitChar_ne_zero_char d hd9 hd1⟩
  show (decDigitsAux n n).reverse.map Nat.digitChar = _
  rw [hld]
  simp

theorem dropZeros_replicate (k : Nat) (l : List Char) :
    dropZeros (List.replicate k '0' ++ l) = dropZeros l := by
  induction k with
  | zero => rfl
  | succ j ih => simp [List.replicate_succ, dropZeros, ih]

theorem dropZeros_of_head_ne (c : Char) (t : List Char) (h : c ≠ '0') :
    dropZeros (c :: t) = c :: t := by
  simp [dropZeros, h]

theorem padStart_data (s : String) (len : Nat) (c : Char) :
    (padStart s len c).data = List.replicate (len - s.length) c ++ s.data := rfl

theorem string_append_data (s t : String) : (s ++ t).data = s.data ++ t.data := by
  cases s; cases t; rfl

theorem robotIdFor_inj : ∀ a b, 1 ≤ a → 1 ≤ b →
    robotIdFor a = robotIdFor b → a = b := by
  intro a b ha hb h
  unfold robotIdFor at h
  have hdata := congrArg String.data h
  rw [string_append_data, string_append_data] at hdata
  have hpad : (padStart (natToString a) 3 '0').data
      = (padStart (natToString b) 3 '0').data :=
    List.append_cancel_left hdata
  rw [padStart_data, padStart_data] at hpad
  obtain ⟨ca, ta, hta, hca⟩ := natToString_head a ha
  obtain ⟨cb, tb, htb, hcb⟩ := natToString_head b hb
  have hz := congrArg dropZeros hpad
  rw [hta, htb, dropZeros_replicate, dropZeros_replicate,
    dropZeros_of_head_ne ca ta hca, dropZeros_of_head_ne cb tb hcb] at hz
  rw [← hta, ← htb] at hz
  exact natToString_inj a b ha hb (String.ext hz)

theorem robotIdFor_ne (k j : Nat) (hk : k ≠ j) :
    robotIdFor (k + 1) ≠ robotIdFor (j + 1) := by
  intro hEq
  have := robotIdFor_inj (k + 1) (j + 1) (by omega) (by omega) hEq
  omega

theorem initFleet_step (f0 : List RobotState) (n now2 j : Nat)
    (L : List RobotState)
    (hlen : L.length = max n j)
    (hfresh : ∀ k, k < j → L[k]? = some (Robot.new (robotIdFor (k + 1)) now2))
    (hold : ∀ k, j ≤ k → k < n → L[k]? = f0[k]?)
    (hids : ∀ k, k < L.length →
        L[k]?.map RobotState.id = some (robotIdFor (k + 1))) :
    (mapSetBy RobotState.id L (Robot.new (robotIdFor (j + 1)) now2)).length
        = max n (j + 1)
    ∧ (∀ k, k < j + 1 →
        (mapSetBy RobotState.id L (Robot.new (robotIdFor (j + 1)) now2))[k]?
          = some (Robot.new (robotIdFor (k + 1)) now2))
    ∧ (∀ k, j + 1 ≤ k → k < n →
        (mapSetBy RobotState.id L (Robot.new (robotIdFor (j + 1)) now2))[k]?
          = f0[k]?)
    ∧ (∀ k, k < (mapSetBy RobotState.id L (Robot.new (robotIdFor (j + 1)) now2)).length →
        (mapSetBy RobotState.id L (Robot.new (robotIdFor (j + 1)) now2))[k]?.map RobotState.id
          = some (robotIdFor (k + 1))) := by
  by_cases hjL : j < L.length
  · have hjn : j < n := by omega
    have hrjid : (L[j]).id = robotIdFor (j + 1) := by
      have := hids j hjL
      rw [List.getElem?_eq_getElem hjL] at this
      simpa using this
    have hany : L.any
        (fun x => RobotState.id x == RobotState.id (Robot.new (robotIdFor (j + 1)) now2))
          = true := by
      rw [List.any_eq_true]
      refine ⟨L[j], List.mem_iff_getElem?.2 ⟨j, List.getElem?_eq_getElem hjL⟩, ?_⟩
      simp [Robot.new, hrjid]
    have hmap : mapSetBy RobotState.id L (Robot.new (robotIdFor (j + 1)) now2)
        = L.map (fun x =>
            if RobotState.id x == RobotState.id (Robot.new (robotIdFor (j + 1)) now2)
            then Robot.new (robotIdFor (j + 1)) now2 else x) := by
      unfold mapSetBy
      rw [if_pos hany]
    refine ⟨?_, ?_, ?_, ?_⟩
    · rw [hmap, List.length_map, hlen]
      omega
    · intro k hk
      by_cases hkj : k < j
      · rw [hmap, List.getElem?_map, hfresh k hkj]
        simp [Robot.new, robotIdFor_ne k j (by omega)]
      · have hkj2 : k = j := by omega
        subst hkj2
        rw [hmap, List.getElem?_map, List.getElem?_eq_getElem hjL]
        simp [Robot.new, hrjid]
    · intro k hk1 hk2
      have hklen : k < L.length := by omega
      have hLk := List.getElem?_eq_getElem hklen
      have hxid : (L[k]).id = robotIdFor (k + 1) := by
        have := hids k hklen
        rw [hLk] at this
        simpa using this
      rw [hmap, List.getElem?_map, hLk]
      rw [← hold k (by omega) hk2, hLk]
      simp [Robot.new, hxid, robotIdFor_ne k j (by omega)]
    · intro k hk
      rw [hmap, List.length_map] at hk
      have hLk := List.getElem?_eq_getElem hk
      have hxid : (L[k]).id = robotIdFor (k + 1) := by
        have := hids k hk
        rw [hLk] at this
        simpa using this
      rw [hmap, List.getElem?_map, hLk]
      cases hb : ((L[k]).id == RobotState.id (Robot.new (robotIdFor (j + 1)) now2)) with
      | false =>
        have hne2 : robotIdFor (k + 1) ≠ RobotState.id (Robot.new (robotIdFor (j + 1)) now2) := by
          intro hEq
          have hbt : ((L[k]).id == RobotState.id (Robot.new (robotIdFor (j + 1)) now2)) = true :=
            beq_iff_eq.2 (by rw [hxid]; exact hEq)
          rw [hb] at hbt
          exact Bool.noConfusion hbt
        simp [hxid, hne2]
      | true =>
        have hb2 : robotIdFor (k + 1) = robotIdFor (j + 1) := by
          have h3 := beq_iff_eq.1 hb
          rw [hxid] at h3
          simpa [Robot.new] using h3
        simp [hxid, Robot.new, hb2]
  · have hlen2 : L.length = j ∧ n ≤ j := by
      constructor <;> omega
    have hanyF : L.any
        (fun x => RobotState.id x == RobotState.id (Robot.new (robotIdFor (j + 1)) now2))
          = false := by
      rw [List.any_eq_false]
      intro x hx
      obtain ⟨k, hk⟩ := List.mem_iff_getElem?.1 hx
      have hklen : k < L.length := by
        by_contra hge
        rw [List.getElem?_eq_none (by omega)] at hk
        simp at hk
      have hxid : x.id = robotIdFor (k + 1) := by
        have := hids k hklen
        rw [hk] at this
        simpa using this
      simp [Robot.new, hxid]
      exact robotIdFor_ne k j (by omega)
    have hmap : mapSetBy RobotState.id L (Robot.new (robotIdFor (j + 1)) now2)
        = L ++ [Robot.new (robotIdFor (j + 1)) now2] := by
      unfold mapSetBy
      rw [if_neg (by simp [hanyF])]
    refine ⟨?_, ?_, ?_, ?_⟩
    · rw [hmap]
      simp only [List.length_append, List.length_cons, List.length_nil]
      omega
    · intro k hk
      by_cases hkL : k < L.length
      · rw [hmap, List.getElem?_append, if_pos hkL]
        exact hfresh k (by omega)
      · have hkj : k = j := by omega
        subst hkj
        rw [hmap, List.getElem?_append_right (by omega)]
        simp [show k - L.length = 0 by omega]
    · intro k hk1 hk2
      omega
    · intro k hk
      rw [hmap, List.length_append, List.length_cons, List.length_nil] at hk
      by_cases hkL : k < L.length
      · rw [hmap, List.getElem?_append, if_pos hkL]
        exact hids k hkL
      · have hkj : k = j := by omega
        subst hkj
        rw [hmap, List.getElem?_append_right (by omega)]
        simp [show k - L.length = 0 by omega, Robot.new]

theorem initFleet_fold (f0 : List RobotState) (n now2 : Nat)
    (hlen0 : f0.length = n)
    (hids0 : ∀ k, k < n → f0[k]?.map RobotState.id = some (robotIdFor (k + 1))) :
    ∀ j,
      ((List.range j).foldl
          (fun l i => mapSetBy RobotState.id l (Robot.new (robotIdFor (i + 1)) now2))
          f0).length = max n j
      ∧ (∀ k, k < j →
          ((List.range j).foldl
              (fun l i => mapSetBy RobotState.id l (Robot.new (robotIdFor (i + 1)) now2))
              f0)[k]? = some (Robot.new (robotIdFor (k + 1)) now2))
      ∧ (∀ k, j ≤ k → k < n →
          ((List.range j).foldl
              (fun l i => mapSetBy RobotState.id l (Robot.new (robotIdFor (i + 1)) now2))
              f0)[k]? = f0[k]?)
      ∧ (∀ k, k < ((List.range j).foldl
              (fun l i => mapSetBy RobotState.id l (Robot.new (robotIdFor (i + 1)) now2))
              f0).length →
          ((List.range j).foldl
              (fun l i => mapSetBy RobotState.id l (Robot.new (robotIdFor (i + 1)) now2))
              f0)[k]?.map RobotState.id = some (robotIdFor (k + 1))) := by
  intro j
  induction j with
  | zero =>
    refine ⟨by simpa using hlen0, ?_, ?_, ?_⟩
    · intro k hk
      omega
    · intro k _ _
      rfl
    · intro k hk
      exact hids0 k (by simpa [hlen0] using hk)
  | succ m ih =>
    rw [List.range_succ, List.foldl_append, List.foldl_cons, List.foldl_nil]
    exact initFleet_step f0 n now2 m _ ih.1 ih.2.1 ih.2.2.1 ih.2.2.2

/-- C10: re-running `initializeFleet(m)` on a fleet that holds `n` robots
with ids `robot-001 .. robot-n` (in positions `0 .. n-1`) succeeds and
leaves `max n m` robots: positions `0 .. m-1` hold freshly constructed
IDLE robots with no bound mission (discarding whatever state those ids
had), while positions `m .. n-1` keep their previous robots unchanged. -/
theorem initializeFleet_reinit (f : FleetState) (n m now2 : Nat)
    (hn : 1 ≤ n) (hm : 1 ≤ m)
    (hlen : f.robots.length = n)
    (hids : ∀ k, k < n →
        f.robots[k]?.map RobotState.id = some (robotIdFor (k + 1))) :
    (FleetManager.initializeFleet f m now2).robots.length = max n m
    ∧ (∀ k, k < m → (FleetManager.initializeFleet f m now2).robots[k]?
        = some (Robot.new (robotIdFor (k + 1)) now2))
    ∧ (∀ k, m ≤ k → k < n → (FleetManager.initializeFleet f m now2).robots[k]?
        = f.robots[k]?) := by
  have h := initFleet_fold f.robots n now2 hlen hids m
  exact ⟨h.1, h.2.1, h.2.2.1⟩

theorem initializeFleet_reinit_witness :
    (FleetManager.initializeFleet c10Fleet 1 5).robots.length = max 2 1
    ∧ (∀ k, k < 1 → (FleetManager.initializeFleet c10Fleet 1 5).robots[k]?
        = some (Robot.new (robotIdFor (k + 1)) 5))
    ∧ (∀ k, 1 ≤ k → k < 2 → (FleetManager.initializeFleet c10Fleet 1 5).robots[k]?
        = c10Fleet.robots[k]?) :=
  initializeFleet_reinit c10Fleet 2 1 5 (by decide) (by decide) (by decide)
    (by decide)

theorem find?_map_update {α : Type} (key : α → String) (rid : String)
    (a2 : α) (hid : key a2 = rid) :
    ∀ (l : List α) (a : α), l.find? (fun x => key x == rid) = some a →
      (l.map (fun x => if key x == rid then a2 else x)).find?
          (fun x => key x == rid) = some a2 := by
  intro l
  induction l with
  | nil => intro a h; simp [List.find?] at h
  | cons b bs ih =>
    intro a h
    cases hb : (key b == rid) with
    | true =>
      simp only [List.map_cons]
      rw [if_pos hb]
      exact List.find?_cons_of_pos _ (by simp [hid])
    | false =>
      rw [List.find?_cons_of_neg _ (by simp [hb])] at h
      simp only [List.map_cons]
      rw [if_neg (by simp [hb])]
      rw [List.find?_cons_of_neg _ (by simp [hb])]
      exact ih a h

/-- C5 (amended): if a robot is DELIVERING with a bound mission that exists
in the registry and is not already terminal, then with the engine wiring
in place `cancelRobotMission` raises nothing, the robot ends IDLE with no
bound mission, and the mission ends CANCELLED with `cancelledAt = now`.
The as-stated claim drops the non-terminal hypothesis and fails when the
mission was already completed behind the robot's back (counterexample). -/
theorem cancel_mid_flight (sys : SystemState) (rid mid : String)
    (r : RobotState) (m : Mission) (now : Nat)
    (hr : sys.fleet.robots.find? (fun x => x.id == rid) = some r)
    (hst : r.status = .delivering)
    (hbound : r.currentMissionId = some mid)
    (hm : sys.missions.find? (fun x => x.id == mid) = some m)
    (hterm : ¬(m.status = .completed ∨ m.status = .cancelled)) :
    SimulationEngine.cancelRobotMission sys rid now
      = .ok (true,
          { fleet := { robots := sys.fleet.robots.map (fun x =>
              if x.id == rid then
                { r with status := .idle, currentMissionId := none,
                         lastUpdated := now }
              else x) },
            missions := sys.missions.map (fun x =>
              if x.id == mid then
                { m with status := .cancelled, cancelledAt := some now }
              else x) })
    ∧ (sys.fleet.robots.map (fun x =>
          if x.id == rid then
            { r with status := .idle, currentMissionId := none,
                     lastUpdated := now }
          else x)).find? (fun x => x.id == rid)
        = some { r with status := .idle, currentMissionId := none,
                        lastUpdated := now }
    ∧ (sys.missions.map (fun x =>
          if x.id == mid then
            { m with status := .cancelled, cancelledAt := some now }
          else x)).find? (fun x => x.id == mid)
        = some { m with status := .cancelled, cancelledAt := some now } := by
  have hrid : r.id = rid := by simpa using List.find?_some hr
  have hmid : m.id = mid := by simpa using List.find?_some hm
  have hcancel : Robot.cancelCurrentMission r now
      = ({ r with status := .idle, currentMissionId := none,
                  lastUpdated := now },
         some (some mid)) := by
    unfold Robot.cancelCurrentMission
    rw [if_neg (by simp [hst]), hbound]
  have hfleet : FleetManager.cancelRobotMission sys.fleet rid now
      = (true,
         { robots := sys.fleet.robots.map (fun x =>
             if x.id == rid then
               { r with status := .idle, currentMissionId := none,
                        lastUpdated := now }
             else x) },
         some (some mid)) := by
    unfold FleetManager.cancelRobotMission
    rw [hr]
    simp only [hcancel]
  have hmcancel : MissionManager.cancelMission sys.missions mid now
      = .ok (sys.missions.map (fun x =>
          if x.id == mid then
            { m with status := .cancelled, cancelledAt := some now }
          else x)) := by
    unfold MissionManager.cancelMission
    rw [hm]
    simp only [if_neg hterm]
  refine ⟨?_, ?_, ?_⟩
  · unfold SimulationEngine.cancelRobotMission
    simp only [hfleet, hmcancel, Except.map]
  · exact find?_map_update RobotState.id rid _ (by simp [hrid])
      sys.fleet.robots r hr
  · exact find?_map_update Mission.id mid _ (by simp [hmid])
      sys.missions m hm

theorem cancel_mid_flight_witness :
    SimulationEngine.cancelRobotMission c5WitSys "robot-001" 50
      = .ok (true,
          { fleet := { robots := c5WitSys.fleet.robots.map (fun x =>
              if x.id == "robot-001" then
                { c5Robot with status := .idle, currentMissionId := none,
                               lastUpdated := 50 }
              else x) },
            missions := c5WitSys.missions.map (fun x =>
              if x.id == "mission-abcd1234" then
                { c5WitMission with status := .cancelled,
                                    cancelledAt := some 50 }
              else x) })
    ∧ (c5WitSys.fleet.robots.map (fun x =>
          if x.id == "robot-001" then
            { c5Robot with status := .idle, currentMissionId := none,
                           lastUpdated := 50 }
          else x)).find? (fun x => x.id == "robot-001")
        = some { c5Robot with status := .idle, currentMissionId := none,
                              lastUpdated := 50 }
    ∧ (c5WitSys.missions.map (fun x =>
          if x.id == "mission-abcd1234" then
            { c5WitMission with status := .cancelled, cancelledAt := some 50 }
          else x)).find? (fun x => x.id == "mission-abcd1234")
        = some { c5WitMission with status := .cancelled,
                                   cancelledAt := some 50 } :=
  cancel_mid_flight c5WitSys "robot-001" "mission-abcd1234" c5Robot
    c5WitMission 50 (by decide) rfl rfl (by decide) (by decide)

/-- C5 as stated fails: when the bound mission has already reached a
terminal state through the mission registry's own API, the wired
cancellation leaves it there — `cancelMission` is a no-op on terminal
missions — so the mission does not end CANCELLED. -/
theorem cancel_after_external_complete_counterexample : ¬ c5Statement := by
  intro h
  obtain ⟨ok2, sys2, heq, -, m2, hm2, hst2, -⟩ :=
    h c5Sys "robot-001" "mission-abcd1234" c5Robot c5Mission 50
      (by decide) rfl rfl (by decide)
  have heval : SimulationEngine.cancelRobotMission c5Sys "robot-001" 50
      = .ok (true, c5SysAfter) := rfl
  rw [heval] at heq
  have hpair := Except.ok.inj heq
  obtain ⟨-, hsys2⟩ := Prod.ext_iff.1 hpair
  have hsys2b : c5SysAfter = sys2 := hsys2
  have hm2b : ([c5Mission] : List Mission).find?
      (fun x => x.id == "mission-abcd1234") = some m2 := by
    rw [← hsys2b] at hm2
    exact hm2
  have hfind : ([c5Mission] : List Mission).find?
      (fun x => x.id == "mission-abcd1234") = some c5Mission := by decide
  rw [hfind] at hm2b
  have hm2c : m2 = c5Mission := (Option.some.inj hm2b).symm
  rw [hm2c] at hst2
  exact absurd hst2 (by decide)
